import Mathlib

/-!
Verification development for the comfy-zkit-ui backend services.

The definitions below are a shallow embedding of the two service modules
that carry the system's design content:

* `src/server/services/comfyui.ts` — upload, job submission, and the
  polling loop `waitForResult`;
* `src/server/services/imageProcessor.ts` — `resizeImage` and
  `addWatermark`.

Network effects are embedded by passing the outcome of each network call
explicitly: a poll tick receives a `TickEnv` describing what the history
endpoint and the view endpoint return on that tick, and time is modelled
in milliseconds as a natural number, advanced by the duration of each
tick's network calls plus the fixed sleep interval.  External libraries
(`sharp`, `qrcode`) are embedded as abstract function parameters for the
byte-level encoding they perform, while every decision the TypeScript
code itself makes (dimension checks, scaling arithmetic, overlay
geometry, early returns) is translated directly.
-/

set_option autoImplicit false

namespace ComfyZkit

/-- Raw binary payloads (`Buffer` in the source) are byte lists. -/
abbrev Bytes := List Nat

/-! ### comfyui.ts : data model of the upstream responses -/

/-- One image reference inside a history output node
(`{ filename; subfolder; type }` in `waitForResult`). -/
structure ImageRef where
  filename : String
  subfolder : String
  type : String
  deriving DecidableEq, Repr

/-- One output node of a prompt's history entry (`{ images? }`);
an absent `images` field is embedded as the empty list, which the code
treats identically (`output.images && output.images.length > 0`). -/
structure NodeOutput where
  images : List ImageRef
  deriving DecidableEq, Repr

/-- The history entry for one prompt id (`{ outputs? }`).  `outputs` is an
object whose keys are node ids; its iteration order is embedded as the
order of an association list. -/
structure PromptEntry where
  outputs : Option (List (String × NodeOutput))
  deriving DecidableEq, Repr

/-- Outcome of the tick's `fetch` of the history endpoint: the fetch threw
a network error, returned a non-success status, or returned a parsed body
mapping prompt ids to history entries. -/
inductive HistoryResult where
  | netError
  | notOk
  | ok (entries : List (String × PromptEntry))
  deriving DecidableEq, Repr

/-- Outcome of a `fetch` of the view endpoint for one image reference. -/
inductive ViewResult where
  | netError
  | notOk
  | ok (bytes : Bytes)
  deriving DecidableEq, Repr

/-- What the network returns during one poll tick: the history response
for the prompt id, and the view response for each image reference the
tick may fetch. -/
structure TickEnv where
  history : HistoryResult
  view : ImageRef → ViewResult

/-- Observable outcome of one iteration of the polling loop body:
either a binary result is returned, or the iteration falls through to
`sleep` and continues; `logged` records whether the continuation went
through the `catch` handler (which logs via `console.error`). -/
inductive TickOutcome where
  | found (bytes : Bytes)
  | cont (logged : Bool)
  deriving DecidableEq, Repr

/-- Lookup `history[promptId]` : property access in the parsed history body. -/
def lookupEntry (pid : String) (entries : List (String × PromptEntry)) :
    Option PromptEntry :=
  (entries.find? (fun p => p.1 = pid)).map Prod.snd

/-- The `for (const nodeId in promptHistory.outputs)` loop: visit nodes in
iteration order; at the first node with a non-empty `images` array, fetch
the view URL of its first image.  A successful fetch returns the bytes; a
non-success status falls through to the next node; a thrown network error
escapes to the `catch` handler (logged continuation, remaining nodes are
skipped). -/
def fetchImages (view : ImageRef → ViewResult) :
    List (String × NodeOutput) → TickOutcome
  | [] => .cont false
  | (_, out) :: rest =>
    match out.images with
    | [] => fetchImages view rest
    | img :: _ =>
      match view img with
      | .ok b => .found b
      | .notOk => fetchImages view rest
      | .netError => .cont true

/-- One iteration of the `while` loop body of `waitForResult`: fetch the
history; on a thrown error continue (logged), on a non-success status
continue, on a missing entry or missing `outputs` continue, otherwise
scan the output nodes with `fetchImages`. -/
def processTick (pid : String) (env : TickEnv) : TickOutcome :=
  match env.history with
  | .netError => .cont true
  | .notOk => .cont false
  | .ok entries =>
    match lookupEntry pid entries with
    | none => .cont false
    | some entry =>
      match entry.outputs with
      | none => .cont false
      | some outs => fetchImages env.view outs

/-- Source line `const pollInterval = 1000;` (milliseconds). -/
def pollInterval : Nat := 1000

/-- The default of the `timeout` parameter: `timeout = 180000`
(milliseconds). -/
def defaultTimeout : Nat := 180000

/-- The `while (Date.now() - startTime < timeout)` loop of
`waitForResult`.  `elapsed` is `Date.now() - startTime`; `envs t` is the
network environment of tick `t` and `durs t` the time its network calls
consume, so one iteration advances elapsed time by `durs t +
pollInterval` (its calls plus the `sleep`).  Returns the loop's result
together with the number of iterations of the loop body executed. -/
def waitLoop (pid : String) (envs : Nat → TickEnv) (durs : Nat → Nat)
    (timeout : Nat) (tick : Nat) (elapsed : Nat) : Option Bytes × Nat :=
  if elapsed < timeout then
    match processTick pid (envs tick) with
    | .found b => (some b, 1)
    | .cont _ =>
      let r := waitLoop pid envs durs timeout (tick + 1)
        (elapsed + durs tick + pollInterval)
      (r.1, r.2 + 1)
  else
    (none, 0)
termination_by timeout - elapsed
decreasing_by simp [pollInterval]; omega

/-- Function `waitForResult(promptId, timeout)` : run the polling loop from
elapsed time `0`; the value returned to the caller. -/
def waitForResult (pid : String) (envs : Nat → TickEnv) (durs : Nat → Nat)
    (timeout : Nat) : Option Bytes :=
  (waitLoop pid envs durs timeout 0 0).1

/-- Number of iterations of the polling loop body executed by
`waitForResult`. -/
def waitTicks (pid : String) (envs : Nat → TickEnv) (durs : Nat → Nat)
    (timeout : Nat) : Nat :=
  (waitLoop pid envs durs timeout 0 0).2

/-- The image the tick's node scan fetches first: the first image of the
first output node with a non-empty `images` array. -/
def firstImage : List (String × NodeOutput) → Option ImageRef
  | [] => none
  | (_, out) :: rest =>
    match out.images with
    | [] => firstImage rest
    | img :: _ => some img

/-- The first image of every output node that has one: exactly the image
references the tick's node scan can try to fetch. -/
def headImages (outs : List (String × NodeOutput)) : List ImageRef :=
  outs.filterMap (fun p => p.2.images.head?)

/-! ### comfyui.ts : uploadImage and queuePrompt -/

/-- The slice of a `fetch` `Response` the two submission calls read:
`ok` and `statusText`, plus the parsed JSON body. -/
structure HttpResponse (β : Type) where
  ok : Bool
  statusText : String
  body : β
  deriving DecidableEq, Repr

/-- Outcome of one `fetch`: either the promise rejected with a network
error (carrying the thrown message) or a response arrived. -/
inductive FetchOutcome (β : Type) where
  | netError (message : String)
  | response (resp : HttpResponse β)
  deriving DecidableEq, Repr

/-- The error a failed submission call rejects with (the spec's
`SubmissionError`); the source throws a plain `Error` whose message is
modelled here. -/
structure SubmissionError where
  message : String
  deriving DecidableEq, Repr

/-- Body of a successful `/upload/image` response (`{ name }`). -/
structure UploadBody where
  name : String
  deriving DecidableEq, Repr

/-- Body of a successful `/prompt` response (`{ prompt_id }`). -/
structure PromptBody where
  prompt_id : String
  deriving DecidableEq, Repr

/-- Function `uploadImage` : POST the form data; a rejected fetch propagates its
error, a non-success status throws `上传图片失败: <statusText>`, and
otherwise the server-assigned `name` is returned. -/
def uploadImage (res : FetchOutcome UploadBody) :
    Except SubmissionError String :=
  match res with
  | .netError m => .error ⟨m⟩
  | .response r =>
    if r.ok then .ok r.body.name
    else .error ⟨"上传图片失败: " ++ r.statusText⟩

/-- Function `queuePrompt` : POST the prompt graph; a rejected fetch propagates
its error, a non-success status throws `提交任务失败: <statusText>`, and
otherwise the assigned `prompt_id` is returned. -/
def queuePrompt (res : FetchOutcome PromptBody) :
    Except SubmissionError String :=
  match res with
  | .netError m => .error ⟨m⟩
  | .response r =>
    if r.ok then .ok r.body.prompt_id
    else .error ⟨"提交任务失败: " ++ r.statusText⟩

/-! ### imageProcessor.ts : resizeImage

`sharp` metadata gives a width and a height; an image is its dimensions
plus its raw bytes.  The floating-point scale arithmetic of the source is
embedded over `ℚ`, and `Math.round` / `Math.floor` / `Math.ceil` become
the corresponding integer roundings; JavaScript `Math.round(x)` is
`⌊x + 1/2⌋`.  The `sharp(...).resize(newWidth, newHeight, fit inside)`
pipeline is embedded as producing an image with exactly the requested
dimensions (the requested box is computed from the image's own aspect
ratio, so `fit: 'inside'` does not shrink it further), re-encoded by an
abstract `encodePng`. -/

/-- Source line `const MAX_DIMENSION = 2560;` -/
def MAX_DIMENSION : Nat := 2560

/-- JavaScript `Math.round` for the non-negative reals that arise here:
round half up. -/
def jsRound (q : ℚ) : ℤ := ⌊q + 1 / 2⌋

/-- Image bytes together with the dimensions `sharp` reports for them. -/
structure ImageData where
  width : Nat
  height : Nat
  bytes : Bytes
  deriving DecidableEq, Repr

/-- Source line `const scale = Math.min(MAX_DIMENSION / width, MAX_DIMENSION / height);` -/
def resizeScale (width height : Nat) : ℚ :=
  min ((MAX_DIMENSION : ℚ) / width) ((MAX_DIMENSION : ℚ) / height)

/-- The decision `resizeImage` makes from the metadata: return the input
unchanged, or resize to `(Math.round(width * scale),
Math.round(height * scale))`. -/
inductive ResizeDecision where
  | noop
  | resize (newWidth newHeight : ℤ)
  deriving DecidableEq, Repr

/-- The branch structure of `resizeImage`: a no-op when both dimensions
are at most `MAX_DIMENSION`, otherwise the rounded scaled dimensions. -/
def resizeDecision (width height : Nat) : ResizeDecision :=
  if width ≤ MAX_DIMENSION ∧ height ≤ MAX_DIMENSION then .noop
  else
    .resize (jsRound (width * resizeScale width height))
      (jsRound (height * resizeScale width height))

/-- Function `resizeImage` : return the input buffer unchanged when no dimension
exceeds the maximum, otherwise the re-encoded image at the rounded scaled
dimensions.  `encodePng` abstracts the `sharp` resize-and-encode byte
transform. -/
def resizeImage (encodePng : ImageData → ℤ → ℤ → Bytes)
    (img : ImageData) : ImageData :=
  match resizeDecision img.width img.height with
  | .noop => img
  | .resize nw nh => ⟨nw.toNat, nh.toNat, encodePng img nw nh⟩

/-! ### imageProcessor.ts : addWatermark -/

/-- JavaScript truthiness of an optional string option: `undefined` and
the empty string are falsy. -/
def strTruthy : Option String → Bool
  | none => false
  | some s => !(s == "")

/-- The two optional fields of `addWatermark`'s `options` argument. -/
structure WatermarkOptions where
  textWatermark : Option String
  qrContent : Option String
  deriving DecidableEq, Repr

/-- The `input` of one composite overlay: either the QR code buffer
`QRCode.toBuffer(content, width qrSize)` or the generated watermark SVG
markup, which is determined by the escaped text, the font size, and the
computed box dimensions. -/
inductive OverlayInput where
  | qr (content : String) (size : ℤ)
  | svg (escapedText : String) (fontSize : ℤ) (boxWidth : ℚ) (boxHeight : ℤ)
  deriving DecidableEq, Repr

/-- One element pushed onto `composites`: its input and its `top`/`left`
anchors. -/
structure OverlayOptions where
  input : OverlayInput
  top : ℤ
  left : ℤ
  deriving DecidableEq, Repr

/-- Function `escapeXml` : escape the five XML special characters. -/
def escapeXml (s : String) : String :=
  ((((s.replace "&" "&amp;").replace "<" "&lt;").replace ">" "&gt;").replace
    "\"" "&quot;").replace "\x27" "&apos;"

/-- Source line `const qrSize = Math.min(120, Math.floor(width * 0.15));` -/
def qrSizeOf (width : Nat) : ℤ :=
  min 120 ⌊(width : ℚ) * (15 / 100)⌋

/-- Source line `const fontSize = Math.max(16, Math.floor(width * 0.025));` -/
def fontSizeOf (width : Nat) : ℤ :=
  max 16 ⌊(width : ℚ) * (25 / 1000)⌋

/-- Function `addWatermark` : with neither a truthy text watermark nor truthy QR
content, return the input buffer unchanged; otherwise build the
composite overlay list (QR first, then text, sharing the running
`currentBottom` offset with `padding = 20`) and hand it to the abstract
`sharp` composite-and-encode transform. -/
def addWatermark (composite : ImageData → List OverlayOptions → Bytes)
    (img : ImageData) (opts : WatermarkOptions) : Bytes :=
  if !(strTruthy opts.textWatermark) && !(strTruthy opts.qrContent) then
    img.bytes
  else
    let width := img.width
    let height := img.height
    let padding : ℤ := 20
    let hasQr := strTruthy opts.qrContent
    let qrSize := qrSizeOf width
    let qrComposites : List OverlayOptions :=
      if hasQr then
        [⟨.qr (opts.qrContent.getD "") qrSize,
          (height : ℤ) - qrSize - padding,
          (width : ℤ) - qrSize - padding⟩]
      else []
    let currentBottom : ℤ := if hasQr then padding + qrSize + 10 else padding
    let hasText := strTruthy opts.textWatermark
    let text := opts.textWatermark.getD ""
    let fontSize := fontSizeOf width
    let textWidth : ℚ := (text.length : ℚ) * fontSize * (6 / 10)
    let textHeight : ℤ := fontSize + 10
    let textComposites : List OverlayOptions :=
      if hasText then
        [⟨.svg (escapeXml text) fontSize (textWidth + 20) textHeight,
          (height : ℤ) - textHeight - currentBottom,
          (width : ℤ) - ⌈textWidth + 20⌉ - padding⟩]
      else []
    composite img (qrComposites ++ textComposites)

/-! ### Concrete sample data -/

/-- A sample output image reference. -/
def sampleRef : ImageRef := ⟨"ComfyUI_00001_.png", "", "output"⟩

/-- A sample history body: prompt `p1` has one output node `9` with one
image. -/
def sampleEntries : List (String × PromptEntry) :=
  [("p1", ⟨some [("9", ⟨[sampleRef]⟩)]⟩)]

/-- Tick environment: history succeeds with an output and the view fetch
succeeds. -/
def tickEnvFound : TickEnv := ⟨.ok sampleEntries, fun _ => .ok [7, 7, 7]⟩

/-- Tick environment: the history fetch throws a network error. -/
def tickEnvNetErr : TickEnv := ⟨.netError, fun _ => .notOk⟩

/-- Tick environment: history succeeds with an output but every view
fetch returns a non-success status. -/
def tickEnvViewNotOk : TickEnv := ⟨.ok sampleEntries, fun _ => .notOk⟩

/-- A trivial byte encoder standing in for the `sharp` resize pipeline in
concrete instantiations. -/
def encodeZero : ImageData → ℤ → ℤ → Bytes := fun _ _ _ => []

/-! ## Theorems -/

/-! ### Polling loop: unfolding lemmas -/

/-- Loop exit: once the elapsed time reaches the timeout the loop stops
with no result and no further iterations. -/
theorem waitLoop_exit (pid : String) (envs : Nat → TickEnv) (durs : Nat → Nat)
    (timeout t e : Nat) (he : ¬ e < timeout) :
    waitLoop pid envs durs timeout t e = (none, 0) := by
  rw [waitLoop.eq_def]
  simp [he]

/-- Loop step on a tick that returns a binary payload. -/
theorem waitLoop_found_step (pid : String) (envs : Nat → TickEnv) (durs : Nat → Nat)
    (timeout t e : Nat) (b : Bytes) (he : e < timeout)
    (h : processTick pid (envs t) = .found b) :
    waitLoop pid envs durs timeout t e = (some b, 1) := by
  rw [waitLoop.eq_def]
  simp [he, h]

/-- Loop step on a tick that falls through: sleep one interval and poll
again. -/
theorem waitLoop_cont_step (pid : String) (envs : Nat → TickEnv) (durs : Nat → Nat)
    (timeout t e : Nat) (lg : Bool) (he : e < timeout)
    (h : processTick pid (envs t) = .cont lg) :
    waitLoop pid envs durs timeout t e =
      ((waitLoop pid envs durs timeout (t + 1) (e + durs t + pollInterval)).1,
       (waitLoop pid envs durs timeout (t + 1) (e + durs t + pollInterval)).2 + 1) := by
  rw [waitLoop.eq_def]
  simp [he, h]

/-- The node scan returns the bytes of the first image of the first node
with images, when fetching that image succeeds. -/
theorem fetchImages_found (view : ImageRef → ViewResult)
    (outs : List (String × NodeOutput)) (img : ImageRef) (b : Bytes)
    (hfirst : firstImage outs = some img) (hview : view img = .ok b) :
    fetchImages view outs = .found b := by
  induction outs with
  | nil => simp [firstImage] at hfirst
  | cons hd tl ih =>
    obtain ⟨nid, out⟩ := hd
    simp only [firstImage] at hfirst
    simp only [fetchImages]
    rcases hio : out.images with _ | ⟨i, is⟩ <;> simp only [hio] at hfirst ⊢
    · exact ih hfirst
    · cases hfirst
      rw [hview]

/-- When every view fetch the scan can try returns a non-success status,
the node scan falls through without a result and without an error. -/
theorem fetchImages_all_notOk (view : ImageRef → ViewResult)
    (outs : List (String × NodeOutput))
    (hall : ∀ img ∈ headImages outs, view img = .notOk) :
    fetchImages view outs = .cont false := by
  induction outs with
  | nil => simp [fetchImages]
  | cons hd tl ih =>
    obtain ⟨nid, out⟩ := hd
    simp only [fetchImages]
    rcases hio : out.images with _ | ⟨i, is⟩
    · refine ih ?_
      intro img hm
      refine hall img ?_
      simp [headImages, hio] at hm ⊢
      exact hm
    · have hi : view i = .notOk := by
        refine hall i ?_
        simp [headImages, hio]
      simp only [hi]
      refine ih ?_
      intro img hm
      refine hall img ?_
      simp [headImages, hio] at hm ⊢
      exact Or.inr hm

/-- If no tick ever produces a binary payload, the loop's result is
`none`, whatever the tick durations; fuel-indexed form. -/
theorem waitLoop_none_of_no_found (pid : String) (envs : Nat → TickEnv)
    (durs : Nat → Nat) (h : ∀ t b, processTick pid (envs t) ≠ .found b) :
    ∀ n timeout t e, timeout - e ≤ n →
      (waitLoop pid envs durs timeout t e).1 = none := by
  intro n
  induction n with
  | zero =>
    intro timeout t e hle
    rw [waitLoop_exit pid envs durs timeout t e (by omega)]
  | succ n ih =>
    intro timeout t e hle
    by_cases he : e < timeout
    · cases hp : processTick pid (envs t) with
      | found b => exact absurd hp (h t b)
      | cont lg =>
        rw [waitLoop_cont_step pid envs durs timeout t e lg he hp]
        refine ih timeout (t + 1) (e + durs t + pollInterval) ?_
        simp only [pollInterval]
        omega
    · rw [waitLoop_exit pid envs durs timeout t e he]

/-- Each loop iteration consumes at least one poll interval of elapsed
time, so from elapsed time `e` the loop body runs at most
`⌈(timeout - e) / pollInterval⌉` times; fuel-indexed form. -/
theorem waitLoop_ticks_le (pid : String) (envs : Nat → TickEnv)
    (durs : Nat → Nat) :
    ∀ n timeout t e, timeout - e ≤ n →
      (waitLoop pid envs durs timeout t e).2 ≤
        (timeout - e + (pollInterval - 1)) / pollInterval := by
  intro n
  induction n with
  | zero =>
    intro timeout t e hle
    rw [waitLoop_exit pid envs durs timeout t e (by omega)]
    simp
  | succ n ih =>
    intro timeout t e hle
    by_cases he : e < timeout
    · cases hp : processTick pid (envs t) with
      | found b =>
        rw [waitLoop_found_step pid envs durs timeout t e b he hp]
        simp only [pollInterval]
        omega
      | cont lg =>
        rw [waitLoop_cont_step pid envs durs timeout t e lg he hp]
        have h2 := ih timeout (t + 1) (e + durs t + pollInterval)
          (by simp only [pollInterval]; omega)
        simp only [pollInterval] at h2 ⊢
        omega
    · rw [waitLoop_exit pid envs durs timeout t e he]
      simp

/-! ### Claim theorems for the polling loop -/

/-- C1: on any poll tick whose history response contains an output node
with at least one image, the poller fetches the view endpoint for the
first image of the first such node, and when that fetch yields the
binary it is returned as the job's result: the tick's outcome is
`found b` and the polling loop returns `some b`. -/
theorem waitForResult_found_first (pid : String) (envs : Nat → TickEnv)
    (durs : Nat → Nat) (timeout t e : Nat)
    (entries : List (String × PromptEntry)) (entry : PromptEntry)
    (outs : List (String × NodeOutput)) (img : ImageRef) (b : Bytes)
    (hhist : (envs t).history = .ok entries)
    (hentry : lookupEntry pid entries = some entry)
    (houts : entry.outputs = some outs)
    (hfirst : firstImage outs = some img)
    (hview : (envs t).view img = .ok b)
    (he : e < timeout) :
    processTick pid (envs t) = .found b ∧
    (waitLoop pid envs durs timeout t e).1 = some b := by
  have hp : processTick pid (envs t) = .found b := by
    simp only [processTick, hhist, hentry, houts]
    exact fetchImages_found (envs t).view outs img b hfirst hview
  refine ⟨hp, ?_⟩
  rw [waitLoop_found_step pid envs durs timeout t e b he hp]

/-- Witness for C1 at a concrete tick environment. -/
theorem waitForResult_found_first_w :
    processTick "p1" tickEnvFound = .found [7, 7, 7] ∧
    (waitLoop "p1" (fun _ => tickEnvFound) (fun _ => 0) 5000 0 0).1 =
      some [7, 7, 7] :=
  waitForResult_found_first "p1" (fun _ => tickEnvFound) (fun _ => 0) 5000 0 0
    sampleEntries ⟨some [("9", ⟨[sampleRef]⟩)]⟩ [("9", ⟨[sampleRef]⟩)]
    sampleRef [7, 7, 7] rfl rfl rfl rfl rfl (by omega)

/-- C2: the default maximum wait is `180000` ms (180 seconds) and the
poll interval is `1000` ms (1 second); once the elapsed time reaches the
maximum the loop stops and, when no tick ever produced a binary payload,
`waitForResult` returns the explicit absence value `none` (the embedding
is a total function into `Option`, so no exception is involved). -/
theorem waitForResult_defaults_exhausted (pid : String) (envs : Nat → TickEnv)
    (durs : Nat → Nat)
    (h : ∀ t b, processTick pid (envs t) ≠ .found b) :
    defaultTimeout = 180 * 1000 ∧ pollInterval = 1 * 1000 ∧
    (∀ t e, defaultTimeout ≤ e →
      waitLoop pid envs durs defaultTimeout t e = (none, 0)) ∧
    waitForResult pid envs durs defaultTimeout = none := by
  refine ⟨rfl, rfl, ?_, ?_⟩
  · intro t e hle
    exact waitLoop_exit pid envs durs defaultTimeout t e (by omega)
  · exact waitLoop_none_of_no_found pid envs durs h defaultTimeout
      defaultTimeout 0 0 (by omega)

/-- Witness for C2 at a concrete tick environment that never produces a
result. -/
theorem waitForResult_defaults_exhausted_w :
    waitForResult "p1" (fun _ => tickEnvNetErr) (fun _ => 0) defaultTimeout =
      none ∧
    waitLoop "p1" (fun _ => tickEnvNetErr) (fun _ => 0) defaultTimeout 0
      defaultTimeout = (none, 0) := by
  have h := waitForResult_defaults_exhausted "p1" (fun _ => tickEnvNetErr)
    (fun _ => 0) (by intro t b hb; simp [processTick, tickEnvNetErr] at hb)
  exact ⟨h.2.2.2, h.2.2.1 0 defaultTimeout (le_refl _)⟩

/-- C3: a tick whose history query fails transiently — thrown network
error or non-success status — neither returns nor raises: its outcome is
a continuation (logged exactly for the thrown case), and the loop's
value is the value of the loop restarted at the next tick after one
sleep interval. -/
theorem waitForResult_transient_history (pid : String) (envs : Nat → TickEnv)
    (durs : Nat → Nat) (timeout t e : Nat) (he : e < timeout) :
    ((envs t).history = .netError → processTick pid (envs t) = .cont true) ∧
    ((envs t).history = .notOk → processTick pid (envs t) = .cont false) ∧
    (((envs t).history = .netError ∨ (envs t).history = .notOk) →
      (waitLoop pid envs durs timeout t e).1 =
        (waitLoop pid envs durs timeout (t + 1)
          (e + durs t + pollInterval)).1) := by
  refine ⟨fun hh => by simp [processTick, hh], fun hh => by simp [processTick, hh], ?_⟩
  intro hh
  rcases hh with hh | hh
  · rw [waitLoop_cont_step pid envs durs timeout t e true he
      (by simp [processTick, hh])]
  · rw [waitLoop_cont_step pid envs durs timeout t e false he
      (by simp [processTick, hh])]

/-- Witness for C3 at a concrete tick environment whose history fetch
throws. -/
theorem waitForResult_transient_history_w :
    processTick "p1" tickEnvNetErr = .cont true ∧
    (waitLoop "p1" (fun _ => tickEnvNetErr) (fun _ => 0) 5000 0 0).1 =
      (waitLoop "p1" (fun _ => tickEnvNetErr) (fun _ => 0) 5000 1
        (0 + 0 + pollInterval)).1 := by
  have h := waitForResult_transient_history "p1" (fun _ => tickEnvNetErr)
    (fun _ => 0) 5000 0 0 (by omega)
  exact ⟨h.1 rfl, h.2.2 (Or.inl rfl)⟩

/-- C4: the polling loop never blocks indefinitely: `waitLoop` is a total
function (it is defined by well-founded recursion on `timeout - elapsed`,
each iteration consuming at least one poll interval of elapsed time), and
the number of loop-body iterations of `waitForResult` is at most
`⌈timeout / pollInterval⌉`. -/
theorem waitForResult_tick_bound (pid : String) (envs : Nat → TickEnv)
    (durs : Nat → Nat) (timeout : Nat) :
    waitTicks pid envs durs timeout ≤
      (timeout + (pollInterval - 1)) / pollInterval := by
  have h := waitLoop_ticks_le pid envs durs timeout timeout 0 0 (by omega)
  simpa using h

/-- C10: on a tick whose history response does contain an output image
reference, but whose view fetches all return a non-success status, the
tick neither returns a result nor raises an error: its outcome is a bare
continuation, and the loop's value is the value of the loop restarted at
the next tick after one sleep interval. -/
theorem waitForResult_view_notOk_continues (pid : String)
    (envs : Nat → TickEnv) (durs : Nat → Nat) (timeout t e : Nat)
    (entries : List (String × PromptEntry)) (entry : PromptEntry)
    (outs : List (String × NodeOutput))
    (hhist : (envs t).history = .ok entries)
    (hentry : lookupEntry pid entries = some entry)
    (houts : entry.outputs = some outs)
    (_hsome : (firstImage outs).isSome = true)
    (hall : ∀ img ∈ headImages outs, (envs t).view img = .notOk)
    (he : e < timeout) :
    processTick pid (envs t) = .cont false ∧
    (waitLoop pid envs durs timeout t e).1 =
      (waitLoop pid envs durs timeout (t + 1)
        (e + durs t + pollInterval)).1 := by
  have hp : processTick pid (envs t) = .cont false := by
    simp only [processTick, hhist, hentry, houts]
    exact fetchImages_all_notOk (envs t).view outs hall
  refine ⟨hp, ?_⟩
  rw [waitLoop_cont_step pid envs durs timeout t e false he hp]

/-- Witness for C10 at a concrete tick environment whose view fetches
fail with a non-success status. -/
theorem waitForResult_view_notOk_continues_w :
    processTick "p1" tickEnvViewNotOk = .cont false ∧
    (waitLoop "p1" (fun _ => tickEnvViewNotOk) (fun _ => 0) 5000 0 0).1 =
      (waitLoop "p1" (fun _ => tickEnvViewNotOk) (fun _ => 0) 5000 1
        (0 + 0 + pollInterval)).1 :=
  waitForResult_view_notOk_continues "p1" (fun _ => tickEnvViewNotOk)
    (fun _ => 0) 5000 0 0 sampleEntries ⟨some [("9", ⟨[sampleRef]⟩)]⟩
    [("9", ⟨[sampleRef]⟩)] rfl rfl rfl rfl
    (by intro img hm; rfl) (by omega)

/-! ### Resize: rounding lemmas -/

/-- Rounding an integer with `Math.round` gives that integer. -/
theorem jsRound_intCast (n : ℤ) : jsRound (n : ℚ) = n := by
  rw [jsRound, Int.floor_eq_iff]
  constructor <;> norm_num

/-- Rounding with `Math.round` is monotone. -/
theorem jsRound_mono (q r : ℚ) (h : q ≤ r) : jsRound q ≤ jsRound r :=
  Int.floor_le_floor (by linarith)

/-- Rounding with `Math.round` moves the argument by at most one half. -/
theorem abs_jsRound_sub (q : ℚ) : |(jsRound q : ℚ) - q| ≤ 1 / 2 := by
  rw [jsRound, abs_le]
  have h1 : (⌊q + 1 / 2⌋ : ℚ) ≤ q + 1 / 2 := Int.floor_le _
  have h2 : q + 1 / 2 - 1 < ⌊q + 1 / 2⌋ := Int.sub_one_lt_floor _
  constructor <;> linarith

/-! ### Claim theorems for resizeImage -/

/-- C5 counterexample: the claim says that after resizing an oversized
image exactly one of the dimensions equals the maximum, but a 3000×3000
image (which exceeds the maximum) resizes to 2560×2560 — both dimensions
equal the maximum. -/
theorem resize_exactly_one_cex :
    MAX_DIMENSION < 3000 ∧
    resizeDecision 3000 3000 = .resize 2560 2560 ∧
    ¬ (((2560 : ℤ) = (MAX_DIMENSION : ℤ) ∧ (2560 : ℤ) ≠ (MAX_DIMENSION : ℤ)) ∨
       ((2560 : ℤ) ≠ (MAX_DIMENSION : ℤ) ∧ (2560 : ℤ) = (MAX_DIMENSION : ℤ))) := by
  refine ⟨by norm_num [MAX_DIMENSION], ?_, by norm_num [MAX_DIMENSION]⟩
  rw [resizeDecision]
  norm_num [MAX_DIMENSION, resizeScale, jsRound]

/-- C5 (amended): for every image with positive dimensions of which at
least one exceeds the maximum, `resizeImage` computes
`scale = min(maxDim/width, maxDim/height)` and rounds each scaled
dimension; after the resize **at least** one of width/height equals the
maximum (both may, e.g. for square images), neither exceeds it, and the
aspect ratio is preserved within rounding:
`|newWidth·height − newHeight·width| ≤ (width + height)/2`. -/
theorem resize_at_least_one_max (w h : Nat) (hw : 0 < w) (hh : 0 < h)
    (hbig : MAX_DIMENSION < w ∨ MAX_DIMENSION < h) :
    ∃ nw nh : ℤ, resizeDecision w h = .resize nw nh ∧
      nw = jsRound (w * resizeScale w h) ∧
      nh = jsRound (h * resizeScale w h) ∧
      (nw = MAX_DIMENSION ∨ nh = MAX_DIMENSION) ∧
      nw ≤ MAX_DIMENSION ∧ nh ≤ MAX_DIMENSION ∧
      |(nw : ℚ) * h - (nh : ℚ) * w| ≤ (w + h) / 2 := by
  have hwQ : (0 : ℚ) < w := by exact_mod_cast hw
  have hhQ : (0 : ℚ) < h := by exact_mod_cast hh
  have hdec : resizeDecision w h =
      .resize (jsRound (w * resizeScale w h)) (jsRound (h * resizeScale w h)) := by
    rw [resizeDecision, if_neg]
    simp only [MAX_DIMENSION] at hbig ⊢
    omega
  refine ⟨_, _, hdec, rfl, rfl, ?_, ?_, ?_, ?_⟩
  · -- at least one of the rounded dimensions is the maximum
    rcases le_total h w with hcmp | hcmp
    · left
      have hmin : resizeScale w h = (MAX_DIMENSION : ℚ) / w := by
        rw [resizeScale]
        refine min_eq_left ?_
        gcongr
      have hws : (w : ℚ) * resizeScale w h = ((MAX_DIMENSION : ℤ) : ℚ) := by
        rw [hmin]
        field_simp
      rw [hws, jsRound_intCast]
    · right
      have hmin : resizeScale w h = (MAX_DIMENSION : ℚ) / h := by
        rw [resizeScale]
        refine min_eq_right ?_
        gcongr
      have hhs : (h : ℚ) * resizeScale w h = ((MAX_DIMENSION : ℤ) : ℚ) := by
        rw [hmin]
        field_simp
      rw [hhs, jsRound_intCast]
  · -- the rounded width never exceeds the maximum
    have hle1 : (w : ℚ) * resizeScale w h ≤ ((MAX_DIMENSION : ℤ) : ℚ) := by
      push_cast
      calc (w : ℚ) * resizeScale w h
          ≤ (w : ℚ) * ((MAX_DIMENSION : ℚ) / w) := by
            gcongr
            exact min_le_left _ _
        _ = (MAX_DIMENSION : ℚ) := by field_simp
    have h2 := jsRound_mono _ _ hle1
    rwa [jsRound_intCast] at h2
  · -- the rounded height never exceeds the maximum
    have hle1 : (h : ℚ) * resizeScale w h ≤ ((MAX_DIMENSION : ℤ) : ℚ) := by
      push_cast
      calc (h : ℚ) * resizeScale w h
          ≤ (h : ℚ) * ((MAX_DIMENSION : ℚ) / h) := by
            gcongr
            exact min_le_right _ _
        _ = (MAX_DIMENSION : ℚ) := by field_simp
    have h2 := jsRound_mono _ _ hle1
    rwa [jsRound_intCast] at h2
  · -- aspect ratio preserved within rounding
    have ha := abs_jsRound_sub ((w : ℚ) * resizeScale w h)
    have hb := abs_jsRound_sub ((h : ℚ) * resizeScale w h)
    have key : (jsRound ((w : ℚ) * resizeScale w h) : ℚ) * h -
        (jsRound ((h : ℚ) * resizeScale w h) : ℚ) * w =
        ((jsRound ((w : ℚ) * resizeScale w h) : ℚ) - (w : ℚ) * resizeScale w h) * h -
        ((jsRound ((h : ℚ) * resizeScale w h) : ℚ) - (h : ℚ) * resizeScale w h) * w := by
      ring
    rw [key]
    have h1 : |((jsRound ((w : ℚ) * resizeScale w h) : ℚ) - (w : ℚ) * resizeScale w h) * h| ≤ 1 / 2 * h := by
      rw [abs_mul, abs_of_nonneg (le_of_lt hhQ)]
      exact mul_le_mul_of_nonneg_right ha (le_of_lt hhQ)
    have h2 : |((jsRound ((h : ℚ) * resizeScale w h) : ℚ) - (h : ℚ) * resizeScale w h) * w| ≤ 1 / 2 * w := by
      rw [abs_mul, abs_of_nonneg (le_of_lt hwQ)]
      exact mul_le_mul_of_nonneg_right hb (le_of_lt hwQ)
    calc |((jsRound ((w : ℚ) * resizeScale w h) : ℚ) - (w : ℚ) * resizeScale w h) * h -
        ((jsRound ((h : ℚ) * resizeScale w h) : ℚ) - (h : ℚ) * resizeScale w h) * w|
        ≤ |((jsRound ((w : ℚ) * resizeScale w h) : ℚ) - (w : ℚ) * resizeScale w h) * h| +
          |((jsRound ((h : ℚ) * resizeScale w h) : ℚ) - (h : ℚ) * resizeScale w h) * w| :=
          abs_sub _ _
      _ ≤ 1 / 2 * h + 1 / 2 * w := add_le_add h1 h2
      _ = ((w : ℚ) + h) / 2 := by ring

/-- Witness for the amended C5 at a concrete 4000×3000 image. -/
theorem resize_at_least_one_max_w :
    0 < 4000 ∧ 0 < 3000 ∧ (MAX_DIMENSION < 4000 ∨ MAX_DIMENSION < 3000) ∧
    (∃ nw nh : ℤ, resizeDecision 4000 3000 = .resize nw nh ∧
      nw = jsRound (4000 * resizeScale 4000 3000) ∧
      nh = jsRound (3000 * resizeScale 4000 3000) ∧
      (nw = MAX_DIMENSION ∨ nh = MAX_DIMENSION) ∧
      nw ≤ MAX_DIMENSION ∧ nh ≤ MAX_DIMENSION ∧
      |(nw : ℚ) * 3000 - (nh : ℚ) * 4000| ≤ (4000 + 3000) / 2) :=
  ⟨by norm_num, by norm_num, Or.inl (by norm_num [MAX_DIMENSION]),
    by
      have h := resize_at_least_one_max 4000 3000 (by norm_num) (by norm_num)
        (Or.inl (by norm_num [MAX_DIMENSION]))
      simpa using h⟩

/-- C6: for every image with both dimensions at most the maximum,
`resizeImage` is a no-op and returns the input (bytes and metadata)
unchanged, whatever the encoder does. -/
theorem resizeImage_noop (enc : ImageData → ℤ → ℤ → Bytes) (img : ImageData)
    (hw : img.width ≤ MAX_DIMENSION) (hh : img.height ≤ MAX_DIMENSION) :
    resizeImage enc img = img := by
  rw [resizeImage, resizeDecision, if_pos ⟨hw, hh⟩]

/-- Witness for C6 at a concrete 800×600 image. -/
theorem resizeImage_noop_w :
    resizeImage encodeZero ⟨800, 600, [1, 2, 3]⟩ = ⟨800, 600, [1, 2, 3]⟩ :=
  resizeImage_noop encodeZero ⟨800, 600, [1, 2, 3]⟩ (by norm_num [MAX_DIMENSION])
    (by norm_num [MAX_DIMENSION])

/-- C7: a 4000×3000 image resizes to exactly 2560×1920, whatever bytes it
holds and whatever the encoder produces. -/
theorem resize_4000_3000 (enc : ImageData → ℤ → ℤ → Bytes) (b : Bytes) :
    (resizeImage enc ⟨4000, 3000, b⟩).width = 2560 ∧
    (resizeImage enc ⟨4000, 3000, b⟩).height = 1920 := by
  have hd : resizeDecision 4000 3000 = .resize 2560 1920 := by
    rw [resizeDecision]
    norm_num [MAX_DIMENSION, resizeScale, jsRound]
  constructor <;> simp [resizeImage, hd]

/-! ### Claim theorems for uploadImage / queuePrompt -/

/-- C8: each submission call fails exactly on a network failure (the
rejection propagates) or a non-success upstream status (a
`SubmissionError` whose message carries the upstream's own status text),
and on success raises nothing and returns the assigned name / job id from
the response body. -/
theorem submission_error_spec (ru : FetchOutcome UploadBody)
    (rq : FetchOutcome PromptBody) :
    (∀ m, ru = .netError m → uploadImage ru = .error ⟨m⟩) ∧
    (∀ r, ru = .response r → r.ok = false →
      uploadImage ru = .error ⟨"上传图片失败: " ++ r.statusText⟩) ∧
    (∀ r, ru = .response r → r.ok = true → uploadImage ru = .ok r.body.name) ∧
    (∀ m, rq = .netError m → queuePrompt rq = .error ⟨m⟩) ∧
    (∀ r, rq = .response r → r.ok = false →
      queuePrompt rq = .error ⟨"提交任务失败: " ++ r.statusText⟩) ∧
    (∀ r, rq = .response r → r.ok = true →
      queuePrompt rq = .ok r.body.prompt_id) := by
  refine ⟨?_, ?_, ?_, ?_, ?_, ?_⟩ <;> intro x hx
  · rw [hx, uploadImage]
  · intro hok
    rw [hx, uploadImage]
    simp [hok]
  · intro hok
    rw [hx, uploadImage]
    simp [hok]
  · rw [hx, queuePrompt]
  · intro hok
    rw [hx, queuePrompt]
    simp [hok]
  · intro hok
    rw [hx, queuePrompt]
    simp [hok]

/-- Witness for C8 at concrete fetch outcomes. -/
theorem submission_error_spec_w :
    uploadImage (.response ⟨false, "Bad Gateway", ⟨"img.png"⟩⟩) =
      .error ⟨"上传图片失败: Bad Gateway"⟩ ∧
    uploadImage (.response ⟨true, "OK", ⟨"img.png"⟩⟩) = .ok "img.png" ∧
    queuePrompt (.netError "fetch failed") = .error ⟨"fetch failed"⟩ := by
  have h1 := submission_error_spec (.response ⟨false, "Bad Gateway", ⟨"img.png"⟩⟩)
    (.netError "fetch failed")
  have h2 := submission_error_spec (.response ⟨true, "OK", ⟨"img.png"⟩⟩)
    (.netError "fetch failed")
  exact ⟨h1.2.1 _ rfl rfl, h2.2.2.1 _ rfl rfl, h1.2.2.2.1 "fetch failed" rfl⟩

/-! ### Claim theorem for addWatermark -/

/-- C9: with neither a text watermark nor QR content provided,
`addWatermark` returns the input buffer unchanged, so in that case
applying it again to the result (under any metadata the re-decoded bytes
may carry) is idempotent. -/
theorem addWatermark_none_id
    (composite : ImageData → List OverlayOptions → Bytes) (img : ImageData)
    (w2 h2 : Nat) :
    addWatermark composite img ⟨none, none⟩ = img.bytes ∧
    addWatermark composite
        ⟨w2, h2, addWatermark composite img ⟨none, none⟩⟩ ⟨none, none⟩ =
      addWatermark composite img ⟨none, none⟩ := by
  constructor <;> rw [addWatermark] <;> simp [strTruthy]

end ComfyZkit
